import Mathlib

/-!
Shallow embedding of the asset-delivery pipeline of the `hyperforge-assets`
repository (an Elysia/Bun CDN for game assets), together with theorems
settling the specification claims about it.

Embedded source files:
* `src/utils/range-handler.ts`  — range parsing, ETags, conditional requests
* `src/utils/file-server.ts`    — `serveFile` / `serveFileHead` (src/unnamed/part_008)
* `src/middleware/rateLimit.ts` — fixed-window rate limiting
* `src/middleware/compression.ts` — Brotli/Gzip negotiation (src/unnamed/part_003)
* `src/utils/webhook.ts`        — HMAC signatures and retrying delivery
* `src/index.ts`                — the `/models/*` route handler

Conventions: JavaScript numbers that can go negative are modelled as `Int`;
byte buffers are `List Nat`; HTTP header maps are association lists in the
insertion order the source uses.  External runtime primitives that the
repository merely calls (date formatting, HMAC, Brotli/Gzip) are taken as
function parameters so every theorem is parametric in them.
-/

namespace HyperforgeAssets

/-! ### Decimal numeral helpers

Used to build the concrete strings that the source produces via JS template
literals and `toString`, and to model `parseInt(s, 10)` on all-digit strings. -/

/-- Digits of `n` in base 10, least significant first (`0 ↦ []`). -/
def toDigitsRev : Nat → List Nat
  | 0 => []
  | n + 1 => ((n + 1) % 10) :: toDigitsRev ((n + 1) / 10)
decreasing_by exact Nat.div_lt_self (Nat.succ_pos n) (by omega)

/-- The character for a single decimal digit. -/
def digitChar (d : Nat) : Char :=
  if d = 0 then '0' else if d = 1 then '1' else if d = 2 then '2'
  else if d = 3 then '3' else if d = 4 then '4' else if d = 5 then '5'
  else if d = 6 then '6' else if d = 7 then '7' else if d = 8 then '8'
  else if d = 9 then '9' else '0'

/-- Decimal numeral of `n`, most significant digit first. -/
def natDigits (n : Nat) : List Char :=
  if n = 0 then ['0'] else ((toDigitsRev n).reverse).map digitChar

/-- Model of `parseInt(s, 10)` on a string of decimal digits. -/
def parseDigits (l : List Char) : Nat :=
  l.foldl (fun acc c => acc * 10 + (c.toNat - 48)) 0

theorem digitChar_isDigit (d : Nat) : (digitChar d).isDigit = true := by
  unfold digitChar
  repeat' split
  all_goals decide

theorem toNat_digitChar (d : Nat) (hd : d < 10) : (digitChar d).toNat - 48 = d := by
  interval_cases d <;> rfl

theorem toDigitsRev_lt (n : Nat) : ∀ d ∈ toDigitsRev n, d < 10 := by
  induction n using Nat.strong_induction_on with
  | _ n ih =>
    match n with
    | 0 => intro d hd; simp [toDigitsRev] at hd
    | m + 1 =>
      intro d hd
      rw [toDigitsRev] at hd
      simp only [List.mem_cons] at hd
      rcases hd with h | h
      · omega
      · exact ih ((m + 1) / 10) (Nat.div_lt_self (Nat.succ_pos m) (by omega)) d h

theorem parseDigits_aux (n : Nat) :
    ∀ acc : Nat,
      List.foldl (fun acc c => acc * 10 + (c.toNat - 48)) acc
        (((toDigitsRev n).reverse).map digitChar) =
      acc * 10 ^ (toDigitsRev n).length + n := by
  induction n using Nat.strong_induction_on with
  | _ n ih =>
    match n with
    | 0 => intro acc; simp [toDigitsRev]
    | m + 1 =>
      intro acc
      rw [toDigitsRev]
      simp only [List.reverse_cons, List.map_append, List.map_cons, List.map_nil,
        List.foldl_append, List.foldl_cons, List.foldl_nil, List.length_cons]
      rw [ih ((m + 1) / 10) (Nat.div_lt_self (Nat.succ_pos m) (by omega)) acc]
      rw [toNat_digitChar _ (Nat.mod_lt _ (by omega))]
      rw [pow_succ, ← mul_assoc]
      generalize acc * 10 ^ (toDigitsRev ((m + 1) / 10)).length = M
      omega

/-- Parsing the decimal numeral of `n` gives back `n`. -/
theorem parseDigits_natDigits (n : Nat) : parseDigits (natDigits n) = n := by
  unfold natDigits
  split
  · simp_all [parseDigits]
  · unfold parseDigits
    rw [parseDigits_aux n 0]
    simp

theorem natDigits_ne_nil (n : Nat) : natDigits n ≠ [] := by
  unfold natDigits
  split
  · simp
  · intro h
    have h0 : toDigitsRev n ≠ [] := by
      match n with
      | 0 => simp_all
      | m + 1 => rw [toDigitsRev]; simp
    simp_all

theorem natDigits_all_digit (n : Nat) : ∀ c ∈ natDigits n, c.isDigit = true := by
  unfold natDigits
  split
  · intro c hc; simp at hc; subst hc; decide
  · intro c hc
    simp only [List.mem_map] at hc
    obtain ⟨d, _, rfl⟩ := hc
    exact digitChar_isDigit d

/-! ### List scanning helpers (shared by the regex model and substring tests) -/

theorem takeWhile_append_cons {p : α → Bool} (l1 : List α) (c : α) (l2 : List α)
    (h1 : ∀ x ∈ l1, p x = true) (hc : p c = false) :
    (l1 ++ c :: l2).takeWhile p = l1 := by
  induction l1 with
  | nil => simp [List.takeWhile_cons, hc]
  | cons a t ihl =>
    have ha : p a = true := h1 a (by simp)
    simp only [List.cons_append, List.takeWhile_cons, ha, if_true]
    rw [ihl (fun x hx => h1 x (by simp [hx]))]

theorem dropWhile_append_cons {p : α → Bool} (l1 : List α) (c : α) (l2 : List α)
    (h1 : ∀ x ∈ l1, p x = true) (hc : p c = false) :
    (l1 ++ c :: l2).dropWhile p = c :: l2 := by
  induction l1 with
  | nil => simp [List.dropWhile_cons, hc]
  | cons a t ihl =>
    have ha : p a = true := h1 a (by simp)
    simp only [List.cons_append, List.dropWhile_cons, ha, if_true]
    exact ihl (fun x hx => h1 x (by simp [hx]))

theorem takeWhile_all {p : α → Bool} (l : List α) (h : ∀ x ∈ l, p x = true) :
    l.takeWhile p = l := by
  induction l with
  | nil => rfl
  | cons a t ihl =>
    have ha : p a = true := h a (by simp)
    simp only [List.takeWhile_cons, ha, if_true]
    rw [ihl (fun x hx => h x (by simp [hx]))]

/-! ### Structural string primitives

`String.toLower`, `String.splitOn` and `String.trim` from core are defined
by well-founded recursion on string positions and do not reduce inside the
kernel, so the JS operations `toLowerCase`, `split` and `trim` are modelled
structurally on character lists instead. -/

/-- `s.toLowerCase()` (ASCII case folding, as `Char.toLower`). -/
def lowerStr (s : String) : String := String.mk (s.data.map Char.toLower)

/-- `s.split(sep)` for a one-character separator. -/
def splitOnChar (sep : Char) : List Char → List (List Char)
  | [] => [[]]
  | c :: cs =>
    let rest := splitOnChar sep cs
    if c = sep then [] :: rest
    else
      match rest with
      | [] => [[c]]
      | r :: rs => (c :: r) :: rs

/-- `s.trim()`: strip whitespace from both ends. -/
def trimChars (l : List Char) : List Char :=
  ((l.dropWhile Char.isWhitespace).reverse.dropWhile Char.isWhitespace).reverse

/-! ### `src/utils/range-handler.ts` -/

/-- `RangeResult` of `range-handler.ts`.  The source fields are
`start`, `end`, `total`, `contentLength`, `isPartial`; `end` and `isPartial`
are renamed (`endPos`, `partialFlag`) because Lean reserves those spellings. -/
structure RangeResult where
  start : Int
  endPos : Int
  total : Int
  contentLength : Int
  partialFlag : Bool
deriving DecidableEq, Repr

/-- One attempt of the regex `/bytes=(\d*)-(\d*)/` at the current position:
the literal `bytes=`, then a greedy digit run, a literal `-`, and a second
greedy digit run.  Returns the two capture groups. -/
def matchBytesEq : List Char → Option (List Char × List Char)
  | 'b' :: 'y' :: 't' :: 'e' :: 's' :: '=' :: rest =>
    match rest.dropWhile Char.isDigit with
    | '-' :: rest2 =>
      some (rest.takeWhile Char.isDigit, rest2.takeWhile Char.isDigit)
    | _ => none
  | _ => none

/-- `rangeHeader.match(/bytes=(\d*)-(\d*)/)`: try the pattern at every
position, left to right, first success wins. -/
def scanRange : List Char → Option (List Char × List Char)
  | [] => none
  | c :: cs =>
    match matchBytesEq (c :: cs) with
    | some r => some r
    | none => scanRange cs

/-- Lines 38–45 of `range-handler.ts`: turn the two capture groups into the
`start`/`end` pair, handling the suffix form `bytes=-N`. -/
def resolveRange (m : List Char × List Char) (fileSize : Int) : Int × Int :=
  let start0 : Int := if m.1 ≠ [] then (parseDigits m.1 : Int) else 0
  let end0 : Int := if m.2 ≠ [] then (parseDigits m.2 : Int) else fileSize - 1
  if m.1 = [] ∧ m.2 ≠ [] then
    (max 0 (fileSize - (parseDigits m.2 : Int)), fileSize - 1)
  else
    (start0, end0)

/-- `parseRangeHeader(rangeHeader, fileSize)` of `range-handler.ts`. -/
def parseRangeHeader (rangeHeader : Option String) (fileSize : Int) :
    Option RangeResult :=
  match rangeHeader with
  | none =>
    some { start := 0, endPos := fileSize - 1, total := fileSize,
           contentLength := fileSize, partialFlag := false }
  | some h =>
    match scanRange h.data with
    | none => none
    | some m =>
      let se := resolveRange m fileSize
      if se.1 ≥ fileSize ∨ se.2 ≥ fileSize ∨ se.1 > se.2 then none
      else
        some { start := se.1, endPos := se.2, total := fileSize,
               contentLength := se.2 - se.1 + 1, partialFlag := true }

/-- `generateContentRangeHeader(range)` of `range-handler.ts`. -/
def generateContentRangeHeader (range : RangeResult) : String :=
  "bytes " ++ toString range.start ++ "-" ++ toString range.endPos ++ "/" ++
    toString range.total

/-- `generateETag(size, mtime)` of `range-handler.ts`. -/
def generateETag (size : Int) (mtime : Nat) : String :=
  "W/\"" ++ toString size ++ "-" ++ toString mtime ++ "\""

/-- `checkETagMatch(etag, ifNoneMatch)` of `range-handler.ts`. -/
def checkETagMatch (etag : String) (ifNoneMatch : Option String) : Bool :=
  match ifNoneMatch with
  | none => false
  | some s =>
    let tags := (splitOnChar ',' s.data).map (fun t => String.mk (trimChars t))
    tags.contains etag || tags.contains "*"

/-! ### `src/utils/file-server.ts` (src/unnamed/part_008) -/

/-- A body value: the source returns string bodies, byte bodies
(`Bun.file` slices), or `null`. -/
inductive BodyVal where
  | str (s : String)
  | bytes (b : List Nat)
deriving DecidableEq, Repr

/-- An HTTP response: status, headers in insertion order, optional body. -/
structure HttpResponse where
  status : Nat
  headers : List (String × String)
  body : Option BodyVal
deriving DecidableEq, Repr

/-- The observable state of a `Bun.file(filePath)` handle: existence,
content bytes, `lastModified` and the sniffed MIME `type`. -/
structure BunFile where
  exists_ : Bool
  content : List Nat
  lastModified : Nat
  type : String
deriving DecidableEq, Repr

/-- `file.size` (byte length). -/
def BunFile.size (f : BunFile) : Int := (f.content.length : Int)

/-- `file.slice(start, end)` for the in-bounds arguments the source uses. -/
def BunFile.slice (f : BunFile) (a b : Int) : List Nat :=
  (f.content.drop a.toNat).take (b - a).toNat

/-- `ServeFileOptions` of `file-server.ts`. -/
structure ServeFileOptions where
  maxAge : Option Nat
  immutable : Option Bool
  contentType : Option String
deriving DecidableEq, Repr

/-- `x || undefined` applied to a nullable string: empty strings are falsy. -/
def orUndefined : Option String → Option String
  | none => none
  | some s => if s = "" then none else some s

/-- `buildCacheControl(options)` of `file-server.ts`. -/
def buildCacheControl (options : ServeFileOptions) : String :=
  let maxAge := options.maxAge.getD 31536000
  let immut := options.immutable.getD true
  let parts := ["public", "max-age=" ++ toString maxAge] ++
    (if immut then ["immutable"] else [])
  String.intercalate ", " parts

/-- `options.contentType || file.type || "application/octet-stream"`. -/
def pickContentType (options : ServeFileOptions) (fileType : String) : String :=
  match options.contentType with
  | some ct => if ct = "" then pickFromFile fileType else ct
  | none => pickFromFile fileType
where
  pickFromFile (fileType : String) : String :=
    if fileType = "" then "application/octet-stream" else fileType

/-- `serveFile(filePath, context, options)` of `file-server.ts`, as a pure
function of the opened file, the two request headers it reads, and the
options.  `toUTCString` stands for the runtime's
`new Date(t).toUTCString()`. -/
def serveFile (toUTCString : Nat → String) (file : BunFile)
    (ifNoneMatchH rangeH : Option String) (options : ServeFileOptions) :
    HttpResponse :=
  if file.exists_ = false then
    { status := 404, headers := [], body := some (.str "File not found") }
  else
    let fileSize := file.size
    let etag := generateETag fileSize file.lastModified
    if checkETagMatch etag (orUndefined ifNoneMatchH) then
      { status := 304,
        headers := [("ETag", etag), ("Cache-Control", buildCacheControl options)],
        body := none }
    else
      match parseRangeHeader (orUndefined rangeH) fileSize with
      | none =>
        { status := 416,
          headers := [("Content-Range", "bytes */" ++ toString fileSize)],
          body := some (.str "Range Not Satisfiable") }
      | some range =>
        let contentType := pickContentType options file.type
        let headers :=
          [("Content-Type", contentType),
           ("Content-Length", toString range.contentLength),
           ("Accept-Ranges", "bytes"),
           ("ETag", etag),
           ("Last-Modified", toUTCString file.lastModified),
           ("Cache-Control", buildCacheControl options)] ++
          (if range.partialFlag then
            [("Content-Range", generateContentRangeHeader range)] else [])
        if range.partialFlag then
          { status := 206, headers := headers,
            body := some (.bytes (file.slice range.start (range.endPos + 1))) }
        else
          { status := 200, headers := headers, body := some (.bytes file.content) }

/-- `serveFileHead(filePath, context, options)` of `file-server.ts`. -/
def serveFileHead (toUTCString : Nat → String) (file : BunFile)
    (ifNoneMatchH : Option String) (options : ServeFileOptions) :
    HttpResponse :=
  if file.exists_ = false then
    { status := 404, headers := [], body := none }
  else
    let fileSize := file.size
    let etag := generateETag fileSize file.lastModified
    if checkETagMatch etag (orUndefined ifNoneMatchH) then
      { status := 304,
        headers := [("ETag", etag), ("Cache-Control", buildCacheControl options)],
        body := none }
    else
      let contentType := pickContentType options file.type
      { status := 200,
        headers :=
          [("Content-Type", contentType),
           ("Content-Length", toString fileSize),
           ("Accept-Ranges", "bytes"),
           ("ETag", etag),
           ("Last-Modified", toUTCString file.lastModified),
           ("Cache-Control", buildCacheControl options)],
        body := none }

/-! ### `src/index.ts` — the `/models/*` route -/

/-- Node `path.join` segment normalization: `..` pops, `.` and empty
segments vanish (absolute base, so `..` cannot climb above the
filesystem root).  Paths are modelled as segment lists. -/
def normSegs : List String → List String → List String
  | [], acc => acc.reverse
  | s :: rest, acc =>
    if s = ".." then normSegs rest acc.tail
    else if s = "." ∨ s = "" then normSegs rest acc
    else normSegs rest (s :: acc)

/-- `join(DATA_DIR, "models", relativePath)` in the `/models/*` handler. -/
def modelsFilePath (dataDir rel : List String) : List String :=
  normSegs (dataDir ++ ["models"] ++ rel) []

/-- The `app.get("/models/*")` handler of `src/index.ts`: join the wildcard
path onto the data directory and delegate to `serveFile` with default
options.  `fs` is the filesystem: the `Bun.file` handle each path opens. -/
def modelsGetHandler (toUTCString : Nat → String) (fs : List String → BunFile)
    (dataDir rel : List String) (ifNoneMatchH rangeH : Option String) :
    HttpResponse :=
  serveFile toUTCString (fs (modelsFilePath dataDir rel)) ifNoneMatchH rangeH
    ⟨none, none, none⟩

/-! ### `src/middleware/rateLimit.ts` -/

/-- `RateLimitEntry` of `rateLimit.ts`. -/
structure RateLimitEntry where
  count : Nat
  resetTime : Nat
deriving DecidableEq, Repr

/-- The `(maxRequests, windowMs, message)` part of `RateLimitConfig`
(the `skip` regex list is routing plumbing outside the admission logic). -/
structure RateLimitConfig where
  maxRequests : Nat
  windowMs : Nat
  message : Option String
deriving DecidableEq, Repr

/-- `RateLimitStore.get`: an entry whose `resetTime` is strictly in the past
is dropped.  The store is modelled per client fingerprint, so the state is
just this client's optional entry. -/
def storeGet (entry : Option RateLimitEntry) (now : Nat) :
    Option RateLimitEntry :=
  match entry with
  | none => none
  | some e => if e.resetTime < now then none else some e

/-- Outcome of one request through the `onBeforeHandle` hook: either
admitted (with the `set.headers` the hook attaches) or rejected with a
concrete 429 response. -/
inductive RateLimitOutcome where
  | admitted (headers : List (String × String))
  | rejected (response : HttpResponse)
deriving DecidableEq, Repr

/-- `Math.ceil(d / 1000)` on a nonnegative integer millisecond count. -/
def ceilSeconds (d : Nat) : Nat := (d + 999) / 1000

/-- The JSON body of the 429 response
(`JSON.stringify({error, message, retryAfter})`). -/
def rateLimitBody (config : RateLimitConfig) (retryAfter : Nat) : String :=
  let msg := config.message.getD
    ("Too many requests. Please try again in " ++ toString retryAfter ++
      " seconds.")
  "\x7b\"error\":\"RATE_LIMIT_EXCEEDED\",\"message\":\"" ++ msg ++
    "\",\"retryAfter\":" ++ toString retryAfter ++ "\x7d"

/-- One step of the `rateLimit(config)` hook for a fixed client fingerprint:
takes the stored entry and the current time, returns the new stored entry
and the request outcome.  `toISOString` stands for
`new Date(t).toISOString()`. -/
def rateLimitStep (toISOString : Nat → String) (config : RateLimitConfig)
    (entry : Option RateLimitEntry) (now : Nat) :
    Option RateLimitEntry × RateLimitOutcome :=
  match storeGet entry now with
  | none =>
    (some { count := 1, resetTime := now + config.windowMs }, .admitted [])
  | some e =>
    let count := e.count + 1
    if count > config.maxRequests then
      let retryAfter := ceilSeconds (e.resetTime - now)
      (some { count := count, resetTime := e.resetTime },
       .rejected
        { status := 429,
          headers :=
            [("Content-Type", "application/json"),
             ("Retry-After", toString retryAfter),
             ("X-RateLimit-Limit", toString config.maxRequests),
             ("X-RateLimit-Remaining", "0"),
             ("X-RateLimit-Reset", toISOString e.resetTime)],
          body := some (.str (rateLimitBody config retryAfter)) })
    else
      (some { count := count, resetTime := e.resetTime },
       .admitted
        [("X-RateLimit-Limit", toString config.maxRequests),
         ("X-RateLimit-Remaining", toString (config.maxRequests - count)),
         ("X-RateLimit-Reset", toISOString e.resetTime)])

/-- The store contents after `k` requests from one client, all at time
`now`, starting from an empty store. -/
def rateLimitState (toISOString : Nat → String) (config : RateLimitConfig)
    (now : Nat) : Nat → Option RateLimitEntry
  | 0 => none
  | k + 1 =>
    (rateLimitStep toISOString config (rateLimitState toISOString config now k)
      now).1

/-! ### `src/middleware/compression.ts` (src/unnamed/part_003) -/

/-- The `COMPRESSIBLE_TYPES` set. -/
def compressibleTypes : List String :=
  ["text/html", "text/css", "text/plain", "text/xml", "text/javascript",
   "application/json", "application/javascript", "application/xml",
   "application/xhtml+xml", "application/rss+xml", "application/atom+xml",
   "image/svg+xml", "application/vnd.ms-fontobject", "font/ttf", "font/otf",
   "font/woff", "font/woff2"]

/-- `MIN_COMPRESS_SIZE`. -/
def minCompressSize : Nat := 1024

/-- `isCompressible(contentType)`. -/
def isCompressible (contentType : Option String) : Bool :=
  match contentType with
  | none => false
  | some s =>
    let baseType :=
      lowerStr (String.mk (trimChars ((splitOnChar ';' s.data).headD [])))
    compressibleTypes.contains baseType

/-- `String.prototype.includes` as a character-list scan. -/
def containsSub (needle : List Char) : List Char → Bool
  | [] => decide (needle = [])
  | c :: cs => needle.isPrefixOf (c :: cs) || containsSub needle cs

/-- The `"br" | "gzip"` union type. -/
inductive Encoding where
  | br
  | gzip
deriving DecidableEq, Repr

/-- The header token for an encoding. -/
def Encoding.token : Encoding → String
  | .br => "br"
  | .gzip => "gzip"

/-- `selectEncoding(acceptEncoding)`: Brotli is preferred over Gzip; the
source tests with a case-insensitive substring search. -/
def selectEncoding (acceptEncoding : Option String) : Option Encoding :=
  match acceptEncoding with
  | none => none
  | some s =>
    let encodings := lowerStr s
    if containsSub "br".data encodings.data then some .br
    else if containsSub "gzip".data encodings.data then some .gzip
    else none

/-- A fetch `Response` as the compression middleware observes it:
status, status text, headers, and the (buffered) body bytes. -/
structure CResponse where
  status : Nat
  statusText : String
  headers : List (String × String)
  body : List Nat
deriving DecidableEq, Repr

/-- Case-insensitive header-name comparison (`Headers` is
case-insensitive). -/
def headerNameEq (a b : String) : Bool := lowerStr a == lowerStr b

/-- `headers.get(name)`. -/
def headerGet (headers : List (String × String)) (name : String) :
    Option String :=
  (headers.find? (fun p => headerNameEq p.1 name)).map (fun p => p.2)

/-- `headers.set(name, value)`: replace in place if present, else append. -/
def headerSet (headers : List (String × String)) (name value : String) :
    List (String × String) :=
  if headers.any (fun p => headerNameEq p.1 name) then
    headers.map (fun p => if headerNameEq p.1 name then (p.1, value) else p)
  else
    headers ++ [(name, value)]

/-- JS string truthiness of a nullable header value. -/
def truthy : Option String → Bool
  | none => false
  | some s => s ≠ ""

/-- The `compression` middleware's `onAfterHandle` hook, as a pure function
of the request's `Accept-Encoding` header and the buffered response.
`compressFn` stands for `brotliCompressSync`/`gzipSync`. -/
def compressionHandle (compressFn : Encoding → List Nat → List Nat)
    (acceptEncoding : Option String) (response : CResponse) : CResponse :=
  if truthy (headerGet response.headers "content-encoding") then
    response
  else if isCompressible (headerGet response.headers "content-type") = false then
    response
  else
    match selectEncoding acceptEncoding with
    | none => response
    | some encoding =>
      if response.body.length < minCompressSize then
        response
      else
        let compressed := compressFn encoding response.body
        { status := response.status,
          statusText := response.statusText,
          headers :=
            headerSet
              (headerSet
                (headerSet response.headers "Content-Encoding" encoding.token)
                "Content-Length" (toString compressed.length))
              "Vary" "Accept-Encoding",
          body := compressed }

/-! ### `src/utils/webhook.ts` -/

/-- `generateWebhookSignature(payload, secret)`: the hex HMAC-SHA256 of
`JSON.stringify(payload)` under `secret`.  `stringify` and `hmacHex`
stand for the runtime's `JSON.stringify` and
`createHmac("sha256", secret) … digest("hex")`. -/
def generateWebhookSignature {α : Type} (stringify : α → String)
    (hmacHex : String → String → String) (payload : α) (secret : String) :
    String :=
  hmacHex secret (stringify payload)

/-- The numeric value of a hex digit, `none` on other characters. -/
def hexVal (c : Char) : Option Nat :=
  if c.isDigit then some (c.toNat - 48)
  else if 'a' ≤ c ∧ c ≤ 'f' then some (c.toNat - 87)
  else if 'A' ≤ c ∧ c ≤ 'F' then some (c.toNat - 55)
  else none

/-- `Buffer.from(s, "hex")`: decode pairs of hex digits, stopping at the
first invalid pair (or at an odd tail). -/
def hexDecode : List Char → List Nat
  | a :: b :: rest =>
    match hexVal a, hexVal b with
    | some x, some y => (16 * x + y) :: hexDecode rest
    | _, _ => []
  | _ => []

/-- `crypto.timingSafeEqual`: throws (`Except.error`) on unequal buffer
lengths, else reports byte equality. -/
def timingSafeEqual (a b : List Nat) : Except Unit Bool :=
  if a.length ≠ b.length then .error () else .ok (a == b)

/-- `verifyWebhookSignature(payload, signature, secret)`. -/
def verifyWebhookSignature {α : Type} (stringify : α → String)
    (hmacHex : String → String → String) (payload : α) (signature : String)
    (secret : String) : Bool :=
  let expectedSignature := generateWebhookSignature stringify hmacHex payload secret
  if signature.length ≠ expectedSignature.length then false
  else
    match timingSafeEqual (hexDecode signature.data)
        (hexDecode expectedSignature.data) with
    | .ok b => b
    | .error _ => false

/-- Outcome of one `fetch` attempt inside `sendWebhookWithRetry`: a
response with a status, or a thrown network/timeout error. -/
inductive FetchOutcome where
  | success (status : Nat)
  | failure
deriving DecidableEq, Repr

/-- The body of the retry `for` loop of `sendWebhookWithRetry`, recursing
on the number of remaining loop iterations
(`fuel = retryAttempts - attempt`).  A 2xx (`response.ok`) or 4xx response
resolves immediately; any other response or a thrown error retries, with a
backoff of `retryDelay * 2^attempt` recorded whenever another attempt
remains.  Returns the resolved status (`none` for the final `null`) and
the list of backoff delays slept, in order. -/
def sendLoop (outcomes : Nat → FetchOutcome)
    (retryAttempts retryDelay : Nat) : Nat → Nat → Option Nat × List Nat
  | 0, _ => (none, [])
  | fuel + 1, attempt =>
    match outcomes attempt with
    | .success status =>
      if 200 ≤ status ∧ status ≤ 299 then
        (some status, [])
      else if 400 ≤ status ∧ status < 500 then
        (some status, [])
      else
        let rest := sendLoop outcomes retryAttempts retryDelay fuel (attempt + 1)
        if attempt < retryAttempts - 1 then
          (rest.1, retryDelay * 2 ^ attempt :: rest.2)
        else
          rest
    | .failure =>
      let rest := sendLoop outcomes retryAttempts retryDelay fuel (attempt + 1)
      if attempt < retryAttempts - 1 then
        (rest.1, retryDelay * 2 ^ attempt :: rest.2)
      else
        rest

/-- The retry loop of `sendWebhookWithRetry` from attempt index `attempt`
on.  `outcomes` gives the result of the `fetch` on each attempt index. -/
def sendAttempts (outcomes : Nat → FetchOutcome)
    (retryAttempts retryDelay : Nat) (attempt : Nat) :
    Option Nat × List Nat :=
  sendLoop outcomes retryAttempts retryDelay (retryAttempts - attempt) attempt

theorem sendAttempts_stop (outcomes : Nat → FetchOutcome)
    (retryAttempts retryDelay k : Nat) (hk : retryAttempts ≤ k) :
    sendAttempts outcomes retryAttempts retryDelay k = (none, []) := by
  unfold sendAttempts
  rw [show retryAttempts - k = 0 from by omega]
  rfl

theorem sendAttempts_step (outcomes : Nat → FetchOutcome)
    (retryAttempts retryDelay k : Nat) (hk : k < retryAttempts) :
    sendAttempts outcomes retryAttempts retryDelay k =
      match outcomes k with
      | .success status =>
        if 200 ≤ status ∧ status ≤ 299 then
          (some status, [])
        else if 400 ≤ status ∧ status < 500 then
          (some status, [])
        else
          if k < retryAttempts - 1 then
            ((sendAttempts outcomes retryAttempts retryDelay (k + 1)).1,
             retryDelay * 2 ^ k ::
               (sendAttempts outcomes retryAttempts retryDelay (k + 1)).2)
          else
            sendAttempts outcomes retryAttempts retryDelay (k + 1)
      | .failure =>
        if k < retryAttempts - 1 then
          ((sendAttempts outcomes retryAttempts retryDelay (k + 1)).1,
           retryDelay * 2 ^ k ::
             (sendAttempts outcomes retryAttempts retryDelay (k + 1)).2)
        else
          sendAttempts outcomes retryAttempts retryDelay (k + 1) := by
  unfold sendAttempts
  rw [show retryAttempts - k = (retryAttempts - (k + 1)) + 1 from by omega]
  rfl

/-- `sendWebhookWithRetry` with the source's loop started at attempt 0. -/
def sendWebhookWithRetry (outcomes : Nat → FetchOutcome)
    (retryAttempts retryDelay : Nat) : Option Nat × List Nat :=
  sendAttempts outcomes retryAttempts retryDelay 0

/-! ## Theorems for the claims -/

theorem resolveRange_fst_nonneg (m : List Char × List Char) (fileSize : Int) :
    0 ≤ (resolveRange m fileSize).1 := by
  unfold resolveRange
  dsimp only
  split_ifs <;> dsimp only <;> omega

/-- Claim C8, counterexample: with no range header and file size 0, the
source produces the full-body result `{start := 0, end := -1, total := 0,
contentLength := 0, isPartial := false}`, whose `end` is below `start`, so
the claimed invariant `0 <= start <= end <= total-1` fails for it. -/
theorem parseRangeHeader_empty_file_violates_invariant :
    parseRangeHeader none 0 =
      some { start := 0, endPos := -1, total := 0, contentLength := 0,
             partialFlag := false } ∧
    ¬ ((0 : Int) ≤ -1) := by
  exact ⟨rfl, by decide⟩

/-- Claim C8 (amended): every non-null `RangeResult` produced by
`parseRangeHeader` satisfies `contentLength = end - start + 1` and records
`total = fileSize`; the full invariant `0 <= start <= end <= total-1`
holds for every partial result, and for the full-body result whenever the
file size is at least 1 — the sole exception being the full-body result of
an empty file, where `end = -1 < start = 0`. -/
theorem parseRangeHeader_invariant (h : Option String) (n : Nat)
    (r : RangeResult) (hr : parseRangeHeader h (n : Int) = some r) :
    r.total = (n : Int) ∧
    r.contentLength = r.endPos - r.start + 1 ∧
    (1 ≤ n → 0 ≤ r.start ∧ r.start ≤ r.endPos ∧ r.endPos ≤ r.total - 1) ∧
    (r.partialFlag = true →
      0 ≤ r.start ∧ r.start ≤ r.endPos ∧ r.endPos ≤ r.total - 1) := by
  match h with
  | none =>
    simp only [parseRangeHeader, Option.some.injEq] at hr
    subst hr
    refine ⟨rfl, by simp, ?_, by simp⟩
    intro hn
    refine ⟨le_refl 0, ?_, le_refl _⟩
    simp only
    omega
  | some s =>
    simp only [parseRangeHeader] at hr
    match hscan : scanRange s.data with
    | none => rw [hscan] at hr; exact absurd hr (by simp)
    | some m =>
      rw [hscan] at hr
      simp only at hr
      split at hr
      · exact absurd hr (by simp)
      · rename_i hcond
        push_neg at hcond
        obtain ⟨h1, h2, h3⟩ := hcond
        simp only [Option.some.injEq] at hr
        subst hr
        have hs0 : 0 ≤ (resolveRange m (n : Int)).1 :=
          resolveRange_fst_nonneg m (n : Int)
        refine ⟨rfl, by simp, ?_, ?_⟩
        · intro _
          exact ⟨hs0, h3, by simp only; omega⟩
        · intro _
          exact ⟨hs0, h3, by simp only; omega⟩

/-- Claim C8, witness: the amended invariant applied to the concrete parse
of `bytes=100-199` against a 1000-byte file. -/
theorem parseRangeHeader_invariant_witness :
    (parseRangeHeader (some "bytes=100-199") ((1000 : Nat) : Int) =
      some { start := 100, endPos := 199, total := 1000, contentLength := 100,
             partialFlag := true }) ∧
    ((100 : Int) ≤ 199 ∧ (199 : Int) ≤ 1000 - 1) := by
  refine ⟨by decide, ?_⟩
  have h := parseRangeHeader_invariant (some "bytes=100-199") 1000
    { start := 100, endPos := 199, total := 1000, contentLength := 100,
      partialFlag := true } (by decide)
  exact ⟨h.2.2.2 rfl |>.2.1, h.2.2.2 rfl |>.2.2⟩

/-- Claim C10: verifying a freshly generated signature always succeeds
(for any payload serialization and any HMAC primitive), and verification
fails outright whenever the candidate signature's length differs from the
expected hex signature's length. -/
theorem webhook_signature_roundtrip {α : Type} (stringify : α → String)
    (hmacHex : String → String → String) (payload : α) (secret : String) :
    verifyWebhookSignature stringify hmacHex payload
      (generateWebhookSignature stringify hmacHex payload secret) secret =
      true ∧
    (∀ sig : String,
      sig.length ≠
        (generateWebhookSignature stringify hmacHex payload secret).length →
      verifyWebhookSignature stringify hmacHex payload sig secret = false) := by
  constructor
  · simp [verifyWebhookSignature, timingSafeEqual]
  · intro sig hlen
    simp [verifyWebhookSignature, hlen]

/-- Claim C10, witness: the roundtrip and the length rejection evaluated at
a concrete payload, secret and HMAC function. -/
theorem webhook_signature_roundtrip_witness :
    verifyWebhookSignature (fun n : Nat => toString n) (fun s m => s ++ m) 5
      (generateWebhookSignature (fun n : Nat => toString n)
        (fun s m => s ++ m) 5 "k") "k" = true ∧
    verifyWebhookSignature (fun n : Nat => toString n) (fun s m => s ++ m) 5
      "x" "k" = false := by
  refine ⟨(webhook_signature_roundtrip _ _ 5 "k").1, ?_⟩
  exact (webhook_signature_roundtrip (fun n : Nat => toString n)
    (fun s m => s ++ m) 5 "k").2 "x" (by decide)

theorem sendAttempts_exhausted (outcomes : Nat → FetchOutcome)
    (retryAttempts retryDelay : Nat) :
    ∀ fuel j, retryAttempts - j ≤ fuel →
      (∀ k, j ≤ k → k < retryAttempts → outcomes k = .failure) →
      (sendAttempts outcomes retryAttempts retryDelay j).1 = none := by
  intro fuel
  induction fuel with
  | zero =>
    intro j hj _
    rw [sendAttempts_stop _ _ _ j (by omega)]
  | succ n ihn =>
    intro j hj hall
    by_cases hlt : j < retryAttempts
    · rw [sendAttempts_step _ _ _ j hlt]
      rw [hall j (le_refl j) hlt]
      have hrec : (sendAttempts outcomes retryAttempts retryDelay (j + 1)).1 =
          none :=
        ihn (j + 1) (by omega) (fun k hk hk2 => hall k (by omega) hk2)
      split_ifs <;> simpa using hrec
    · rw [sendAttempts_stop _ _ _ j (by omega)]

/-- Claim C9: in `sendWebhookWithRetry`, a 4xx-answered attempt and a
2xx-answered attempt each return immediately with no backoff; a
5xx-answered or thrown (network/timeout) attempt that is not the last is
followed by a backoff of `retryDelay * 2^attempt` milliseconds before the
next attempt; the loop runs at most `retryAttempts` attempts, and if every
attempt fails the function resolves with `null` rather than throwing. -/
theorem webhook_retry_policy (outcomes : Nat → FetchOutcome)
    (retryAttempts retryDelay : Nat) :
    (∀ k s, k < retryAttempts → outcomes k = .success s → 400 ≤ s → s < 500 →
      sendAttempts outcomes retryAttempts retryDelay k = (some s, [])) ∧
    (∀ k s, k < retryAttempts → outcomes k = .success s → 200 ≤ s → s ≤ 299 →
      sendAttempts outcomes retryAttempts retryDelay k = (some s, [])) ∧
    (∀ k s, k < retryAttempts - 1 → outcomes k = .success s → 500 ≤ s →
      sendAttempts outcomes retryAttempts retryDelay k =
        ((sendAttempts outcomes retryAttempts retryDelay (k + 1)).1,
         retryDelay * 2 ^ k ::
           (sendAttempts outcomes retryAttempts retryDelay (k + 1)).2)) ∧
    (∀ k, k < retryAttempts - 1 → outcomes k = .failure →
      sendAttempts outcomes retryAttempts retryDelay k =
        ((sendAttempts outcomes retryAttempts retryDelay (k + 1)).1,
         retryDelay * 2 ^ k ::
           (sendAttempts outcomes retryAttempts retryDelay (k + 1)).2)) ∧
    (∀ k, retryAttempts ≤ k →
      sendAttempts outcomes retryAttempts retryDelay k = (none, [])) ∧
    ((∀ k, k < retryAttempts → outcomes k = .failure) →
      (sendWebhookWithRetry outcomes retryAttempts retryDelay).1 = none) := by
  refine ⟨?_, ?_, ?_, ?_, ?_, ?_⟩
  · intro k s hk hout h4 h5
    rw [sendAttempts_step _ _ _ k hk, hout]
    have hnot2 : ¬ (200 ≤ s ∧ s ≤ 299) := by omega
    simp only [hnot2, if_false, if_pos (And.intro h4 h5)]
  · intro k s hk hout h2 h3
    rw [sendAttempts_step _ _ _ k hk, hout]
    simp only [if_pos (And.intro h2 h3)]
  · intro k s hk hout h5
    rw [sendAttempts_step _ _ _ k (by omega : k < retryAttempts), hout]
    have hnot2 : ¬ (200 ≤ s ∧ s ≤ 299) := by omega
    have hnot4 : ¬ (400 ≤ s ∧ s < 500) := by omega
    simp only [hnot2, if_false, hnot4, if_pos hk]
  · intro k hk hout
    rw [sendAttempts_step _ _ _ k (by omega : k < retryAttempts), hout]
    simp only [if_pos hk]
  · intro k hk
    exact sendAttempts_stop _ _ _ k hk
  · intro hall
    exact sendAttempts_exhausted outcomes retryAttempts retryDelay
      retryAttempts 0 (by omega) (fun k _ hk2 => hall k hk2)

/-- Claim C9, witness: the retry policy evaluated on a concrete schedule —
three configured attempts with outcomes 503, thrown error, 201: the first
two attempts back off 100 ms and 200 ms, the third resolves with 201. -/
theorem webhook_retry_policy_witness :
    sendWebhookWithRetry
      (fun k => if k = 0 then .success 503
        else if k = 1 then .failure else .success 201) 3 100 =
      (some 201, [100, 200]) ∧
    sendAttempts
      (fun k => if k = 0 then .success 503
        else if k = 1 then .failure else .success 201) 3 100 2 =
      (some 201, []) := by
  constructor
  · decide
  · exact (webhook_retry_policy
      (fun k => if k = 0 then .success 503
        else if k = 1 then .failure else .success 201) 3 100).2.1 2 201
      (by decide) (by decide) (by decide) (by decide)

theorem rateLimitState_closed (toISOString : Nat → String)
    (config : RateLimitConfig) (now : Nat) :
    ∀ k, rateLimitState toISOString config now k =
      if k = 0 then none
      else some { count := k, resetTime := now + config.windowMs } := by
  intro k
  induction k with
  | zero => rfl
  | succ n ihn =>
    rw [rateLimitState, ihn]
    by_cases hn : n = 0
    · subst hn
      simp [rateLimitStep, storeGet]
    · rw [if_neg hn, if_neg (Nat.succ_ne_zero n)]
      simp only [rateLimitStep, storeGet]
      rw [if_neg (by omega : ¬ now + config.windowMs < now)]
      by_cases hmax : n + 1 > config.maxRequests
      · simp [hmax]
      · simp [hmax]

/-- Claim C6, counterexample: the very first request of a window is
admitted, but the hook returns before attaching any header, so an admitted
request can carry none of the `X-RateLimit-*` headers — contradicting the
claim that they are attached on every admitted request. -/
theorem rateLimit_first_request_has_no_headers :
    rateLimitStep (fun _ => "") ⟨2, 1000, none⟩ none 0 =
      (some { count := 1, resetTime := 1000 }, .admitted []) := by
  decide

/-- Claim C6 (amended): for a client fingerprint making requests at one
instant `now`: the first request opens a window with count 1 and is
admitted *without* rate-limit headers; each following request up to
`maxRequests` is admitted with the `X-RateLimit-Limit`, `-Remaining` and
`-Reset` headers; the `(maxRequests+1)`th and later requests are rejected with a
429 response carrying `Retry-After` equal to the remaining window rounded
up to seconds plus the three rate-limit headers; and a request arriving
strictly after a window's `resetTime` is admitted as a fresh window of
count 1 (again headerless). -/
theorem rateLimit_window_behavior (toISOString : Nat → String)
    (config : RateLimitConfig) (now : Nat) :
    (rateLimitStep toISOString config none now =
      (some { count := 1, resetTime := now + config.windowMs },
       .admitted [])) ∧
    (∀ k, 1 ≤ k → k + 1 ≤ config.maxRequests →
      (rateLimitStep toISOString config
          (rateLimitState toISOString config now k) now).2 =
        .admitted
          [("X-RateLimit-Limit", toString config.maxRequests),
           ("X-RateLimit-Remaining", toString (config.maxRequests - (k + 1))),
           ("X-RateLimit-Reset", toISOString (now + config.windowMs))]) ∧
    (∀ k, 1 ≤ k → config.maxRequests ≤ k →
      (rateLimitStep toISOString config
          (rateLimitState toISOString config now k) now).2 =
        .rejected
          { status := 429,
            headers :=
              [("Content-Type", "application/json"),
               ("Retry-After", toString (ceilSeconds config.windowMs)),
               ("X-RateLimit-Limit", toString config.maxRequests),
               ("X-RateLimit-Remaining", "0"),
               ("X-RateLimit-Reset", toISOString (now + config.windowMs))],
            body := some (.str
              (rateLimitBody config (ceilSeconds config.windowMs))) }) ∧
    (∀ e : RateLimitEntry, ∀ now2, e.resetTime < now2 →
      rateLimitStep toISOString config (some e) now2 =
        (some { count := 1, resetTime := now2 + config.windowMs },
         .admitted [])) := by
  refine ⟨rfl, ?_, ?_, ?_⟩
  · intro k hk1 hkmax
    rw [rateLimitState_closed, if_neg (by omega)]
    simp only [rateLimitStep, storeGet]
    rw [if_neg (by omega : ¬ now + config.windowMs < now)]
    simp only
    rw [if_neg (by omega : ¬ k + 1 > config.maxRequests)]
  · intro k hk1 hkmax
    rw [rateLimitState_closed, if_neg (by omega)]
    simp only [rateLimitStep, storeGet]
    rw [if_neg (by omega : ¬ now + config.windowMs < now)]
    simp only
    rw [if_pos (by omega : k + 1 > config.maxRequests)]
    rw [show now + config.windowMs - now = config.windowMs from by omega]
  · intro e now2 hlt
    simp only [rateLimitStep, storeGet]
    rw [if_pos hlt]

/-- Claim C6, witness: with `maxRequests = 2` and `windowMs = 60000` at
time 0, the second request is admitted with headers and the third is
rejected with `Retry-After: 60`. -/
theorem rateLimit_window_behavior_witness :
    ((rateLimitStep (fun _ => "t") ⟨2, 60000, none⟩
        (rateLimitState (fun _ => "t") ⟨2, 60000, none⟩ 0 1) 0).2 =
      .admitted
        [("X-RateLimit-Limit", "2"), ("X-RateLimit-Remaining", "0"),
         ("X-RateLimit-Reset", "t")]) ∧
    ((rateLimitStep (fun _ => "t") ⟨2, 60000, none⟩
        (rateLimitState (fun _ => "t") ⟨2, 60000, none⟩ 0 2) 0).2 =
      .rejected
        { status := 429,
          headers :=
            [("Content-Type", "application/json"), ("Retry-After", "60"),
             ("X-RateLimit-Limit", "2"), ("X-RateLimit-Remaining", "0"),
             ("X-RateLimit-Reset", "t")],
          body := some (.str
            ("\x7b\"error\":\"RATE_LIMIT_EXCEEDED\",\"message\":\"" ++
              "Too many requests. Please try again in 60 seconds." ++
              "\",\"retryAfter\":60\x7d")) }) := by
  constructor
  · exact (rateLimit_window_behavior (fun _ => "t") ⟨2, 60000, none⟩ 0).2.1 1
      (by decide) (by decide)
  · have h := (rateLimit_window_behavior (fun _ => "t") ⟨2, 60000, none⟩
      0).2.2.1 2 (by decide) (by decide)
    rw [h]
    decide

/-- A concrete 206 partial-content response with a compressible content
type and a 1024-byte body, used to exercise the compression middleware. -/
def partialHtmlResponse : CResponse :=
  { status := 206, statusText := "Partial Content",
    headers := [("Content-Type", "text/html"),
                ("Content-Range", "bytes 0-1023/4096")],
    body := List.replicate 1024 65 }

set_option maxRecDepth 100000 in
/-- Claim C7, counterexample: the middleware has no check on the status or
on `Content-Range`, so a 206 partial response whose content type is
compressible, whose body reaches the 1 KB floor and whose client accepts
`br` *is* compressed — contradicting the claim that a 206 carrying
`Content-Range` is never compressed. -/
theorem compression_compresses_a_206 :
    partialHtmlResponse.status = 206 ∧
    headerGet partialHtmlResponse.headers "content-range" =
      some "bytes 0-1023/4096" ∧
    headerGet
      (compressionHandle (fun _ _ => [0, 1]) (some "br")
        partialHtmlResponse).headers "content-encoding" = some "br" ∧
    (compressionHandle (fun _ _ => [0, 1]) (some "br")
      partialHtmlResponse).body = [0, 1] := by
  refine ⟨rfl, by decide, by decide, by decide⟩

/-- Claim C7 (amended): the middleware compresses a response if and only if
its content type is in the compressible set, its body is at least 1024
bytes, the client's `Accept-Encoding` yields an encoding (`br` preferred
over `gzip`), and no `Content-Encoding` is already present; there is no
exemption for 206/`Content-Range` responses.  On compression the response
gains `Content-Encoding`, a `Content-Length` recomputed to the compressed
size, and `Vary: Accept-Encoding`; in every other case it is returned
unchanged. -/
theorem compression_characterization
    (compressFn : Encoding → List Nat → List Nat)
    (acceptEncoding : Option String) (response : CResponse) :
    (∀ encoding,
      truthy (headerGet response.headers "content-encoding") = false →
      isCompressible (headerGet response.headers "content-type") = true →
      selectEncoding acceptEncoding = some encoding →
      minCompressSize ≤ response.body.length →
      compressionHandle compressFn acceptEncoding response =
        { status := response.status,
          statusText := response.statusText,
          headers :=
            headerSet
              (headerSet
                (headerSet response.headers "Content-Encoding" encoding.token)
                "Content-Length"
                (toString (compressFn encoding response.body).length))
              "Vary" "Accept-Encoding",
          body := compressFn encoding response.body }) ∧
    (truthy (headerGet response.headers "content-encoding") = true →
      compressionHandle compressFn acceptEncoding response = response) ∧
    (isCompressible (headerGet response.headers "content-type") = false →
      compressionHandle compressFn acceptEncoding response = response) ∧
    (selectEncoding acceptEncoding = none →
      compressionHandle compressFn acceptEncoding response = response) ∧
    (response.body.length < minCompressSize →
      compressionHandle compressFn acceptEncoding response = response) ∧
    (∀ s, acceptEncoding = some s →
      containsSub "br".data (lowerStr s).data = true →
      selectEncoding acceptEncoding = some .br) := by
  refine ⟨?_, ?_, ?_, ?_, ?_, ?_⟩
  · intro encoding hce hct hsel hsize
    simp only [compressionHandle, hce, hct, hsel, if_false, Bool.false_eq_true,
      if_neg (by omega : ¬ response.body.length < minCompressSize)]
    simp
  · intro hce
    simp only [compressionHandle, hce, if_true]
  · intro hct
    simp only [compressionHandle, hct]
    split_ifs <;> rfl
  · intro hsel
    simp only [compressionHandle, hsel]
    split_ifs <;> rfl
  · intro hsize
    simp only [compressionHandle]
    split_ifs with h1 h2
    · rfl
    · rfl
    · cases hsel : selectEncoding acceptEncoding with
      | none => rfl
      | some enc => simp only [hsel, if_pos hsize]
  · intro s hs hbr
    subst hs
    simp only [selectEncoding, hbr, if_true]

set_option maxRecDepth 100000 in
/-- Claim C7, witness: the characterization applied to a concrete eligible
response — a 1024-byte `text/html` body with `Accept-Encoding: gzip` and
no prior encoding is gzip-compressed with the three headers updated. -/
theorem compression_characterization_witness :
    compressionHandle (fun _ _ => [7]) (some "gzip")
      { status := 200, statusText := "OK",
        headers := [("Content-Type", "text/html")],
        body := List.replicate 1024 65 } =
      { status := 200, statusText := "OK",
        headers := [("Content-Type", "text/html"),
                    ("Content-Encoding", "gzip"), ("Content-Length", "1"),
                    ("Vary", "Accept-Encoding")],
        body := [7] } := by
  have h := (compression_characterization (fun _ _ => [7]) (some "gzip")
      { status := 200, statusText := "OK",
        headers := [("Content-Type", "text/html")],
        body := List.replicate 1024 65 }).1 .gzip
    (by decide) (by decide) (by decide) (by decide)
  rw [h]
  decide

/-- A filesystem with a single readable file at `/secret/passwd` — a path
*outside* the asset root `/srv/data` — and nothing else. -/
def outsideOnlyFs : List String → BunFile :=
  fun p =>
    if p = ["secret", "passwd"] then
      { exists_ := true, content := [42], lastModified := 0, type := "" }
    else
      { exists_ := false, content := [], lastModified := 0, type := "" }

/-- Claim C4 (code bug): the `/models/*` handler joins the wildcard path
onto the data directory with no escape check, so the request path
`../../../secret/passwd` resolves outside the asset root `/srv/data` and
the handler serves the outside file's bytes with a 200 — instead of the
404 the spec's security invariant requires. -/
theorem models_route_path_traversal :
    modelsFilePath ["srv", "data"] ["..", "..", "..", "secret", "passwd"] =
      ["secret", "passwd"] ∧
    List.isPrefixOf ["srv", "data"] ["secret", "passwd"] = false ∧
    modelsGetHandler (fun _ => "") outsideOnlyFs ["srv", "data"]
      ["..", "..", "..", "secret", "passwd"] none none =
      { status := 200,
        headers :=
          [("Content-Type", "application/octet-stream"),
           ("Content-Length", "1"),
           ("Accept-Ranges", "bytes"),
           ("ETag", "W/\"1-0\""),
           ("Last-Modified", ""),
           ("Cache-Control", "public, max-age=31536000, immutable")],
        body := some (.bytes [42]) } := by
  refine ⟨by decide, by decide, by decide⟩

/-- Claim C5, counterexample: `serveFileHead` never evaluates the `Range`
header, so for a GET/HEAD pair carrying `Range: bytes=0-0` on a 2-byte
file the GET answers 206 while the HEAD answers 200 — the status codes
(and headers) are not identical as claimed. -/
theorem serveFileHead_differs_on_range :
    (serveFile (fun _ => "") ⟨true, [1, 2], 0, ""⟩ none (some "bytes=0-0")
      ⟨none, none, none⟩).status = 206 ∧
    (serveFileHead (fun _ => "") ⟨true, [1, 2], 0, ""⟩ none
      ⟨none, none, none⟩).status = 200 := by
  refine ⟨by decide, by decide⟩

/-- Claim C5 (amended): for requests carrying *no* `Range` header,
`serveFileHead` returns exactly the status code and headers of the
corresponding `serveFile` GET and never a body; when a `Range` header is
present the HEAD variant ignores it (it performs no range evaluation), so
only range-free requests have the claimed GET/HEAD parity. -/
theorem serveFileHead_matches_rangeless_get (toUTCString : Nat → String)
    (file : BunFile) (ifNoneMatchH : Option String)
    (options : ServeFileOptions) :
    serveFileHead toUTCString file ifNoneMatchH options =
      { status := (serveFile toUTCString file ifNoneMatchH none options).status,
        headers :=
          (serveFile toUTCString file ifNoneMatchH none options).headers,
        body := none } := by
  have horu : orUndefined none = none := rfl
  by_cases hex : file.exists_ = false
  · simp [serveFile, serveFileHead, hex]
  · by_cases hm : checkETagMatch (generateETag file.size file.lastModified)
        (orUndefined ifNoneMatchH) = true
    · simp [serveFile, serveFileHead, hex, hm]
    · simp [serveFile, serveFileHead, hex, hm, horu, parseRangeHeader]

/-- Claim C2: when the `If-None-Match` header matches the file's current
entity tag (as a comma-separated trimmed token, or via `*`), `serveFile`
answers 304 with exactly the `ETag` and `Cache-Control` headers and no
body — no `Content-Length`, no `Content-Range` — and it does so for
*every* `Range` header, because the conditional check precedes range
evaluation. -/
theorem conditional_304_precedes_range (toUTCString : Nat → String)
    (file : BunFile) (inm : String) (rangeH : Option String)
    (options : ServeFileOptions)
    (hex : file.exists_ = true)
    (hm : checkETagMatch (generateETag file.size file.lastModified)
      (orUndefined (some inm)) = true) :
    serveFile toUTCString file (some inm) rangeH options =
      { status := 304,
        headers := [("ETag", generateETag file.size file.lastModified),
                    ("Cache-Control", buildCacheControl options)],
        body := none } := by
  simp [serveFile, hex, hm]

/-- Claim C2, witness: a wildcard `If-None-Match: *` together with an
unsatisfiable `Range: bytes=99-` on a 1-byte file still yields the 304,
not a 416. -/
theorem conditional_304_precedes_range_witness :
    serveFile (fun _ => "") ⟨true, [1], 3, ""⟩ (some "*") (some "bytes=99-")
      ⟨none, none, none⟩ =
      { status := 304,
        headers := [("ETag", "W/\"1-3\""),
                    ("Cache-Control", "public, max-age=31536000, immutable")],
        body := none } := by
  have h := conditional_304_precedes_range (fun _ => "") ⟨true, [1], 3, ""⟩
    "*" (some "bytes=99-") ⟨none, none, none⟩ rfl (by decide)
  rw [h]
  decide

/-- Claim C3, counterexample: the 416 response the source builds carries
the string body `"Range Not Satisfiable"`, not the empty body the claim
demands. -/
theorem range_416_body_not_empty :
    serveFile (fun _ => "") ⟨true, [1], 0, ""⟩ none (some "bytes=5-6")
      ⟨none, none, none⟩ =
      { status := 416, headers := [("Content-Range", "bytes */1")],
        body := some (.str "Range Not Satisfiable") } ∧
    some (BodyVal.str "Range Not Satisfiable") ≠ (none : Option BodyVal) := by
  refine ⟨by decide, by decide⟩

/-- Claim C3 (amended): for an existing file of length `total` and a
nonempty `Range` header that is syntactically malformed, or whose resolved
values satisfy `start >= total`, `end >= total` or `start > end`, and no
matching `If-None-Match`, `serveFile` returns 416 with
`Content-Range: bytes */{total}` and the fixed plain-text body
`"Range Not Satisfiable"` (rather than an empty body). -/
theorem invalid_range_416 (toUTCString : Nat → String) (file : BunFile)
    (inm : Option String) (h : String) (options : ServeFileOptions)
    (hex : file.exists_ = true)
    (hnm : checkETagMatch (generateETag file.size file.lastModified)
      (orUndefined inm) = false)
    (hne : h ≠ "")
    (hbad : scanRange h.data = none ∨
      ∃ m, scanRange h.data = some m ∧
        ((resolveRange m file.size).1 ≥ file.size ∨
         (resolveRange m file.size).2 ≥ file.size ∨
         (resolveRange m file.size).1 > (resolveRange m file.size).2)) :
    serveFile toUTCString file inm (some h) options =
      { status := 416,
        headers := [("Content-Range", "bytes */" ++ toString file.size)],
        body := some (.str "Range Not Satisfiable") } := by
  have hparse : parseRangeHeader (orUndefined (some h)) file.size = none := by
    have horu : orUndefined (some h) = some h := by simp [orUndefined, hne]
    rw [horu]
    simp only [parseRangeHeader]
    rcases hbad with hb | ⟨m, hmeq, hcond⟩
    · rw [hb]
    · rw [hmeq]
      simp only
      rw [if_pos hcond]
  simp [serveFile, hex, hnm, hparse]

/-- Claim C3, witness: `Range: bytes=5-6` against a 1-byte file resolves
to `start = 5 >= total = 1` and yields the 416 with
`Content-Range: bytes */1` and the plain-text body. -/
theorem invalid_range_416_witness :
    serveFile (fun _ => "") ⟨true, [1], 0, ""⟩ none (some "bytes=5-6")
      ⟨none, none, none⟩ =
      { status := 416, headers := [("Content-Range", "bytes */1")],
        body := some (.str "Range Not Satisfiable") } := by
  have h := invalid_range_416 (fun _ => "") ⟨true, [1], 0, ""⟩ none
    "bytes=5-6" ⟨none, none, none⟩ rfl (by decide) (by decide)
    (Or.inr ⟨(['5'], ['6']), by decide, by decide⟩)
  rw [h]
  decide

/-- The header value `bytes={start}-{end}` with both bounds written as
decimal numerals. -/
def mkRangeHeader (a b : Nat) : String :=
  String.mk ('b' :: 'y' :: 't' :: 'e' :: 's' :: '=' ::
    (natDigits a ++ '-' :: natDigits b))

theorem mkRangeHeader_ne_empty (a b : Nat) : mkRangeHeader a b ≠ "" := by
  unfold mkRangeHeader
  intro hcontra
  have hd := congrArg String.data hcontra
  simp at hd

theorem scanRange_mkRangeHeader (a b : Nat) :
    scanRange (mkRangeHeader a b).data = some (natDigits a, natDigits b) := by
  show scanRange ('b' :: 'y' :: 't' :: 'e' :: 's' :: '=' ::
    (natDigits a ++ '-' :: natDigits b)) = some (natDigits a, natDigits b)
  simp only [scanRange, matchBytesEq]
  rw [dropWhile_append_cons _ _ _ (natDigits_all_digit a) (by decide)]
  simp only
  rw [takeWhile_append_cons _ _ _ (natDigits_all_digit a) (by decide),
    takeWhile_all _ (natDigits_all_digit b)]

theorem resolveRange_mkRangeHeader (a b : Nat) (total : Int) :
    resolveRange (natDigits a, natDigits b) total = ((a : Int), (b : Int)) := by
  unfold resolveRange
  dsimp only
  rw [if_neg (by simp [natDigits_ne_nil a])]
  rw [if_pos (by simp [natDigits_ne_nil a] : ¬ natDigits a = [])]
  rw [if_pos (by simp [natDigits_ne_nil b] : ¬ natDigits b = [])]
  rw [parseDigits_natDigits a, parseDigits_natDigits b]

theorem parseRangeHeader_mkRangeHeader (a b : Nat) (total : Int)
    (ha : (a : Int) < total) (hbt : (b : Int) < total) (hab : a ≤ b) :
    parseRangeHeader (some (mkRangeHeader a b)) total =
      some { start := (a : Int), endPos := (b : Int), total := total,
             contentLength := (b : Int) - (a : Int) + 1,
             partialFlag := true } := by
  simp only [parseRangeHeader, scanRange_mkRangeHeader,
    resolveRange_mkRangeHeader]
  rw [if_neg]
  push_neg
  refine ⟨ha, hbt, ?_⟩
  exact_mod_cast hab

/-- Claim C1: for an existing file and any valid pair `start <= end <
total`, a GET with `Range: bytes={start}-{end}` (and no `If-None-Match`)
returns 206 with `Content-Range: bytes {start}-{end}/{total}`,
`Content-Length = end - start + 1`, and a body that is exactly the file's
bytes from offset `start` through `end` inclusive. -/
theorem range_request_206 (toUTCString : Nat → String) (file : BunFile)
    (options : ServeFileOptions) (a b : Nat)
    (hex : file.exists_ = true) (hab : a ≤ b)
    (hb : b < file.content.length) :
    serveFile toUTCString file none (some (mkRangeHeader a b)) options =
      { status := 206,
        headers :=
          [("Content-Type", pickContentType options file.type),
           ("Content-Length", toString ((b : Int) - (a : Int) + 1)),
           ("Accept-Ranges", "bytes"),
           ("ETag", generateETag file.size file.lastModified),
           ("Last-Modified", toUTCString file.lastModified),
           ("Cache-Control", buildCacheControl options),
           ("Content-Range", "bytes " ++ toString (a : Int) ++ "-" ++
             toString (b : Int) ++ "/" ++ toString file.size)],
        body := some (.bytes ((file.content.drop a).take (b - a + 1))) } := by
  have horu : orUndefined (some (mkRangeHeader a b)) =
      some (mkRangeHeader a b) := by
    simp [orUndefined, mkRangeHeader_ne_empty]
  have hparse : parseRangeHeader (orUndefined (some (mkRangeHeader a b)))
      file.size =
      some { start := (a : Int), endPos := (b : Int), total := file.size,
             contentLength := (b : Int) - (a : Int) + 1,
             partialFlag := true } := by
    rw [horu]
    exact parseRangeHeader_mkRangeHeader a b file.size
      (by unfold BunFile.size; exact_mod_cast lt_of_le_of_lt hab hb)
      (by unfold BunFile.size; exact_mod_cast hb) hab
  have hsl : BunFile.slice file ((a : Nat) : Int) (((b : Nat) : Int) + 1) =
      (file.content.drop a).take (b - a + 1) := by
    unfold BunFile.slice
    rw [show (((b : Nat) : Int) + 1 - ((a : Nat) : Int)).toNat = b - a + 1
      from by omega]
    rw [show (((a : Nat) : Int)).toNat = a from by omega]
  have hcm : checkETagMatch (generateETag file.size file.lastModified)
      (orUndefined none) = false := rfl
  simp [serveFile, hex, hparse, generateContentRangeHeader, hsl, hcm]

/-- Claim C1, witness: `Range: bytes=1-2` on the 4-byte file `[9, 8, 7, 6]`
returns 206, `Content-Range: bytes 1-2/4`, `Content-Length: 2` and the two
bytes `[8, 7]`. -/
theorem range_request_206_witness :
    serveFile (fun _ => "LM") ⟨true, [9, 8, 7, 6], 5, ""⟩ none
      (some (mkRangeHeader 1 2)) ⟨none, none, none⟩ =
      { status := 206,
        headers :=
          [("Content-Type", "application/octet-stream"),
           ("Content-Length", "2"),
           ("Accept-Ranges", "bytes"),
           ("ETag", "W/\"4-5\""),
           ("Last-Modified", "LM"),
           ("Cache-Control", "public, max-age=31536000, immutable"),
           ("Content-Range", "bytes 1-2/4")],
        body := some (.bytes [8, 7]) } := by
  have h := range_request_206 (fun _ => "LM") ⟨true, [9, 8, 7, 6], 5, ""⟩
    ⟨none, none, none⟩ 1 2 rfl (by decide) (by decide)
  rw [h]
  decide

end HyperforgeAssets
